import Mathlib

/-
Verification of the RogueLearn CodeBattle core: shallow embedding of the
worker pool (internal/executor/worker_pool.go), the code builder
(internal/executor/code_builder.go, internal/executor/package_analyzer.go)
and the room event hub loop (internal/hub), together with proofs about the
verdict translation, submission lifecycle, queue backpressure and
placeholder substitution.

Go strings are embedded as lists of characters; external effects (Docker
exec, the SQL store, the Go parser) are passed in as explicit outcome
parameters, so every embedded function is a pure function of its inputs
and of the recorded outcomes of its external calls.
-/

namespace CodeBattle

/-- Go strings, embedded as character lists. -/
abbrev Str := List Char

/-- Shorthand turning a Lean string literal into the embedded type. -/
def str (s : String) : Str := s.toList

/-- Whitespace recognizer used by `strings.TrimSpace` (ASCII white space). -/
def isSpace (c : Char) : Bool :=
  c == ' ' || c == '\t' || c == '\n' || c == '\r' || c == '\x0b' || c == '\x0c'

/-- Embedding of Go `strings.TrimSpace`: drop leading and trailing whitespace. -/
def trimSpace (s : Str) : Str :=
  ((s.dropWhile isSpace).reverse.dropWhile isSpace).reverse

/-- Embedding of Go `strings.Replace(s, old, new, 1)`: replace the first
occurrence of `old` in `s` by `new`; if `old` does not occur, return `s`
unchanged (for empty `old`, Go inserts `new` at the front). -/
def replaceOnce (s old new : Str) : Str :=
  if old.isPrefixOf s then new ++ s.drop old.length
  else
    match s with
    | [] => []
    | c :: rest => c :: replaceOnce rest old new

/-- Embedding of Go `strings.Contains(s, old)` (substring test). -/
def containsSub (s old : Str) : Bool :=
  if old.isPrefixOf s then true
  else
    match s with
    | [] => false
    | _ :: rest => containsSub rest old

/-- Go error values relevant to the worker pool: the three sentinel
`CodeErr` values of worker_pool.go, plus arbitrary other non-nil errors
(such as copy-in failures), distinguished by a tag. -/
inductive GoErr
  | compileError
  | runTimeError
  | failTestCase
  | other (tag : Nat)
deriving DecidableEq, Repr

/-- `store.Language` fields used by the worker pool. -/
structure Language where
  CompileCmd : Str
  RunCmd : Str
  TempFileDir : Str
  TempFileName : Str
deriving DecidableEq, Repr

/-- `store.TestCase` fields used by the worker pool. -/
structure TestCase where
  ID : Nat
  Input : Str
  ExpectedOutput : Str
deriving DecidableEq, Repr

/-- `executor.Result`, the structured verdict sent on a job's result channel. -/
structure Result where
  Stdout : Str
  Stderr : Str
  Message : Str
  Success : Bool
  Error : Option GoErr
  ExecutionTime : Str
deriving DecidableEq, Repr

/-- The zero value `Result{}` returned by `ExecuteJob` when the queue is full. -/
def Result.zero : Result :=
  { Stdout := [], Stderr := [], Message := [], Success := false
    Error := none, ExecutionTime := [] }

/-- `executor.ExecuteCommandResult`: outcome of one `docker exec` invocation,
with the duration already in milliseconds. -/
structure ExecCmdResult where
  Stdout : Str
  Stderr : Str
  Err : Option GoErr
  DurationMs : Nat
deriving DecidableEq, Repr

/-- The wrong-answer message built by executeJob
(`fmt.Sprintf("Wrong Answer on test case.\nInput:\n%s\n\nExpected Output:\n%s\n\nYour Output:\n%s", ...)`). -/
def wrongAnswerMessage (input expected actual : Str) : Str :=
  str "Wrong Answer on test case.\nInput:\n" ++ input ++
    str "\n\nExpected Output:\n" ++ expected ++
    str "\n\nYour Output:\n" ++ actual

/-- The verdict sent when a run command errors. -/
def runtimeErrorResult (r : ExecCmdResult) : Result :=
  { Stdout := r.Stdout, Stderr := r.Stderr, Message := str "Runtime error"
    Success := false, Error := some GoErr.runTimeError, ExecutionTime := [] }

/-- The verdict sent when trimmed stdout differs from the trimmed expectation. -/
def wrongAnswerResult (tc : TestCase) (r : ExecCmdResult) : Result :=
  { Stdout := r.Stdout, Stderr := r.Stderr
    Message := wrongAnswerMessage tc.Input (trimSpace tc.ExpectedOutput) (trimSpace r.Stdout)
    Success := false, Error := some GoErr.failTestCase, ExecutionTime := [] }

/-- The verdict sent when every test case passed, carrying the accumulated
execution time in milliseconds. -/
def allPassedResult (totalMs : Nat) : Result :=
  { Stdout := [], Stderr := [], Message := str "All test cases passed!"
    Success := true, Error := none
    ExecutionTime := (Nat.repr totalMs).toList ++ str "ms" }

/-- Embedding of the test-case loop of `executeJob` (worker_pool.go, step 4).
`run i` is the recorded outcome of executing the run command on test case
number `i` (absolute index); `idx` is the index of the first remaining test
case and `acc` the execution time accumulated so far. Returns the single
verdict sent on the result channel together with the number of test cases
actually executed from `tcs`. -/
def runTestCases (run : Nat → ExecCmdResult) :
    List TestCase → Nat → Nat → Result × Nat
  | [], _, acc => (allPassedResult acc, 0)
  | tc :: rest, idx, acc =>
    let r := run idx
    if r.Err.isSome then (runtimeErrorResult r, 1)
    else if trimSpace r.Stdout ≠ trimSpace tc.ExpectedOutput then
      (wrongAnswerResult tc r, 1)
    else
      let p := runTestCases run rest (idx + 1) (acc + r.DurationMs)
      (p.1, p.2 + 1)

/-- Outcome of the container acquisition prologue of `executeJob`
(`GetAvailableContainer` then `SetContainerState(StateBusy)`). -/
inductive ContainerOutcome
  | acquired (id : Nat)
  | acquireFailed (e : GoErr)
  | setBusyFailed (e : GoErr)

/-- Recorded outcomes of the external calls one `executeJob` invocation makes. -/
structure JobEnv where
  container : ContainerOutcome
  copyErr : Option GoErr
  compileResult : ExecCmdResult
  run : Nat → ExecCmdResult

/-- The verdict sent when copying the code into the container fails;
the raw copy error is carried in the `Error` field. -/
def copyFailedResult (e : GoErr) : Result :=
  { Stdout := [], Stderr := [], Message := str "Failed to set up execution environment."
    Success := false, Error := some e, ExecutionTime := [] }

/-- The verdict sent when the compile command fails. -/
def compileFailedResult (r : ExecCmdResult) : Result :=
  { Stdout := r.Stdout, Stderr := r.Stderr, Message := str "Compiled failed"
    Success := false, Error := some GoErr.compileError, ExecutionTime := [] }

/-- Embedding of `executeJob` (worker_pool.go lines 160-308): returns the
list of `Result` values sent on `job.Result` during the invocation, in
order, together with the number of test cases executed. Mirrors every exit
path of the source: container-acquisition failure and busy-marking failure
return without sending; copy-in failure, compile failure, runtime error,
wrong answer and full success each send exactly one verdict. -/
def executeJob (env : JobEnv) (lang : Language) (tcs : List TestCase) :
    List Result × Nat :=
  match env.container with
  | ContainerOutcome.acquireFailed _ => ([], 0)
  | ContainerOutcome.setBusyFailed _ => ([], 0)
  | ContainerOutcome.acquired _ =>
    match env.copyErr with
    | some e => ([copyFailedResult e], 0)
    | none =>
      if !lang.CompileCmd.isEmpty && env.compileResult.Err.isSome then
        ([compileFailedResult env.compileResult], 0)
      else
        let p := runTestCases env.run tcs 0 0
        ([p.1], p.2)

/-- A job description as enqueued by `ExecuteJob`. -/
structure JobSpec where
  lang : Language
  code : Str
deriving DecidableEq

/-- Embedding of the non-blocking enqueue in `ExecuteJob` (worker_pool.go
lines 126-134): the `select` sends iff the buffered job channel has space. -/
def tryEnqueue (cap : Nat) (q : List JobSpec) (j : JobSpec) :
    Option (List JobSpec) :=
  if q.length < cap then some (q ++ [j]) else none

/-- Embedding of `ExecuteJob` (worker_pool.go lines 121-135): on a
successful enqueue the caller blocks on the result channel and returns the
worker's verdict (`await`); on a full queue the `default` branch returns
the zero value `Result{}`. Returns the result handed to the caller and the
queue contents after the call. -/
def ExecuteJob (cap : Nat) (q : List JobSpec) (j : JobSpec) (await : Result) :
    Result × List JobSpec :=
  match tryEnqueue cap q j with
  | some q2 => (await, q2)
  | none => (Result.zero, q)

/-- `events.JudgeStatus` values. -/
inductive JudgeStatus
  | Accepted
  | WrongAnswer
  | RuntimeError
  | CompilationError
  | TimeLimitExceeded
  | MemoryLimitExceeded
deriving DecidableEq, Repr

/-- `store.SubmissionStatus` values (sqlc enum `submission_status`). -/
inductive SubmissionStatus
  | event_unspecified
  | pending
  | accepted
  | wrong_answer
  | limit_exceed
  | runtime_error
  | compilation_error
deriving DecidableEq, Repr

/-- SSE event-type tags relevant to the room loop. -/
inductive EventType
  | CORRECT_SOLUTION_SUBMITTED
  | WRONG_SOLUTION_SUBMITTED
  | PLAYER_JOINED
  | PLAYER_LEFT
  | ROOM_DELETED
  | LEADERBOARD_UPDATED
  | GUILD_LEADERBOARD_UPDATED
deriving DecidableEq, Repr

/-- `events.SolutionSubmitted`; UUIDs are embedded as opaque numeric ids. -/
structure SolutionSubmitted where
  PlayerID : Nat
  EventID : Nat
  RoomID : Nat
  ProblemID : Nat
  Code : Str
  Language : Str
  SubmissionID : Nat
deriving DecidableEq, Repr

/-- `events.SolutionResult`. -/
structure SolutionResult where
  submitted : SolutionSubmitted
  Score : Int
  Status : JudgeStatus
  Message : Str
deriving DecidableEq, Repr

/-- Embedding of `generateSolutionResult` (event hub, room loop): starts
from a default of status `Accepted` with a hard-coded score of 50 and
rewrites status and message only for the three sentinel worker errors;
any other `Error` value (nil or not) leaves the default untouched. -/
def generateSolutionResult (s : SolutionSubmitted) (jobResult : Result) :
    SolutionResult :=
  let base : SolutionResult :=
    { submitted := s, Score := 50, Status := JudgeStatus.Accepted
      Message := str "Solution is correct!" }
  match jobResult.Error with
  | some GoErr.compileError =>
    { base with
        Message := str "compiled error: " ++ jobResult.Message ++ str "\n"
        Status := JudgeStatus.CompilationError }
  | some GoErr.runTimeError =>
    { base with
        Message := str "runtime error: " ++ jobResult.Message ++ str "\n"
        Status := JudgeStatus.RuntimeError }
  | some GoErr.failTestCase =>
    { base with
        Message := str "test case failed: " ++ jobResult.Message ++ str "\n"
        Status := JudgeStatus.WrongAnswer }
  | _ => base

/-- Observable actions of the room loop: store operations, SSE dispatch
calls and the re-enqueue of a `SolutionResult` on the room's own channel. -/
inductive Action
  | createSubmission (sid : Nat)
  | updateSubmission (sid : Nat) (status : SubmissionStatus)
  | dispatchToPlayer (et : EventType) (pid : Nat)
  | dispatchToRoom (et : EventType)
  | addScore (uid rid : Nat) (pts : Int)
  | guildNotify (eid : Nat)
  | calcLeaderboard (rid : Nat)
  | enqueueResult (sr : SolutionResult)
deriving DecidableEq, Repr

/-- Recorded success/failure of the store calls `processSolutionResult` makes. -/
structure ResultEnv where
  updateOk : Bool
  addScoreOk : Bool
  entriesOk : Bool
deriving DecidableEq, Repr

/-- Embedding of `processSolutionResult` (room loop): the sequence of
observable actions it performs. On a non-accepted verdict it updates the
submission to `wrong_answer` (whatever the verdict was) and, if that
succeeded, dispatches `WRONG_SOLUTION_SUBMITTED` to the submitting player
only. On an accepted verdict it adds the score, notifies the guild
channel, recomputes the leaderboard, broadcasts to the room, and updates
the submission to `accepted` last (returning early if fetching the
leaderboard entries failed). -/
def processSolutionResult (rid eid : Nat) (ev : SolutionResult)
    (env : ResultEnv) : List Action :=
  if ev.Status ≠ JudgeStatus.Accepted then
    Action.updateSubmission ev.submitted.SubmissionID SubmissionStatus.wrong_answer ::
      (if env.updateOk then
        [Action.dispatchToPlayer EventType.WRONG_SOLUTION_SUBMITTED ev.submitted.PlayerID]
      else [])
  else
    Action.addScore ev.submitted.PlayerID ev.submitted.RoomID ev.Score ::
      (if !env.addScoreOk then []
      else
        Action.guildNotify eid :: Action.calcLeaderboard rid ::
          Action.dispatchToRoom EventType.CORRECT_SOLUTION_SUBMITTED ::
            (if !env.entriesOk then []
            else
              Action.dispatchToRoom EventType.LEADERBOARD_UPDATED ::
                [Action.updateSubmission ev.submitted.SubmissionID SubmissionStatus.accepted]))

/-- Recorded outcomes of the external calls `processSolutionSubmitted` makes. -/
structure SubmitEnv where
  langFound : Bool
  getLangOk : Bool
  createOk : Bool
  newSubmissionID : Nat
  problemOk : Bool
  testsOk : Bool
  buildOk : Bool
  jobResult : Result
deriving Repr

/-- Embedding of `processSolutionSubmitted` (room loop): normalize the
language, look it up, create a `pending` submission, fetch problem details
and test cases, build the code, run the job synchronously, and enqueue the
translated `SolutionResult` on the room's own events channel. Every failure
path returns immediately with no further action. -/
def processSolutionSubmitted (ev : SolutionSubmitted) (env : SubmitEnv) :
    List Action :=
  if !env.langFound then []
  else if !env.getLangOk then []
  else
    Action.createSubmission env.newSubmissionID ::
      (if !env.createOk then []
      else if !env.problemOk then []
      else if !env.testsOk then []
      else if !env.buildOk then []
      else
        [Action.enqueueResult
          (generateSolutionResult { ev with SubmissionID := env.newSubmissionID }
            env.jobResult)])

/-- Follow-up processing of a re-enqueued `SolutionResult` by the next room
loop iteration; other actions have no follow-up. -/
def followUp (rid eid : Nat) (renv : ResultEnv) : Action → List Action
  | Action.enqueueResult sr => processSolutionResult rid eid sr renv
  | _ => []

/-- The room loop's full action trace for one `SolutionSubmitted` event:
the handler's own actions, then the processing of whatever `SolutionResult`
it re-enqueued. -/
def handleSubmission (rid eid : Nat) (ev : SolutionSubmitted)
    (env : SubmitEnv) (renv : ResultEnv) : List Action :=
  let t := processSolutionSubmitted ev env
  t ++ (t.map (followUp rid eid renv)).flatten

/-- The submission statuses written for submission `sid` in a trace, in order. -/
def updatesFor (sid : Nat) (tr : List Action) : List SubmissionStatus :=
  tr.filterMap fun a =>
    match a with
    | Action.updateSubmission s st => if s == sid then some st else none
    | _ => none

/-- Embedding of the listener lookup loop in `dispatchEventToPlayer`: the
loop scans the whole map and keeps the last entry whose key matches. -/
def findListener (ls : List (Nat × Bool)) (pid : Nat) : Option Bool :=
  ls.foldl (fun acc pb => if pb.1 == pid then some pb.2 else acc) none

/-- Embedding of `dispatchEventToPlayer` (room loop): the set of players
whose channel a send is attempted on. The event is offered only to the
channel registered for `pid`, and only when such a listener exists. -/
def dispatchEventToPlayerTargets (ls : List (Nat × Bool)) (pid : Nat) :
    List Nat :=
  match findListener ls pid with
  | none => []
  | some _ => [pid]

/-- Outcome of one attempted send onto a room's `Events` channel. -/
inductive SendOutcome
  | sent (q : List EventType)
  | droppedWith503
  | blockedWait
deriving DecidableEq, Repr

/-- Capacity of a room's `Events` channel (`make(chan any, 10)`). -/
def roomEventsCap : Nat := 10

/-- Embedding of the enqueue in `SubmitSolutionInRoomHandler`
(handlers/submission.go): a `select` with a `default` branch that answers
503 when the channel is full. -/
def submitHandlerEnqueue (q : List EventType) (e : EventType) : SendOutcome :=
  if q.length < roomEventsCap then SendOutcome.sent (q ++ [e])
  else SendOutcome.droppedWith503

/-- Embedding of the `PlayerJoined` enqueue in the SSE handler
(`GetRoomLeaderboardEventHandler`): a plain channel send inside a spawned
goroutine, which waits when the channel is full. -/
def sseJoinEnqueue (q : List EventType) (e : EventType) : SendOutcome :=
  if q.length < roomEventsCap then SendOutcome.sent (q ++ [e])
  else SendOutcome.blockedWait

/-- Embedding of the `PlayerLeft` enqueue in the SSE handler's disconnect
cleanup: likewise a plain blocking send in a goroutine. -/
def sseLeaveEnqueue (q : List EventType) (e : EventType) : SendOutcome :=
  if q.length < roomEventsCap then SendOutcome.sent (q ++ [e])
  else SendOutcome.blockedWait

/-- Embedding of `r.Events <- solutionResult` in `processSolutionSubmitted`:
a plain send on the room's own channel, performed inline by the room loop,
which waits when the channel is full. -/
def roomLoopReenqueue (q : List EventType) (e : EventType) : SendOutcome :=
  if q.length < roomEventsCap then SendOutcome.sent (q ++ [e])
  else SendOutcome.blockedWait

/-- `executor.LanguagePlaceHolder`: the per-language placeholder pair. -/
structure LanguagePlaceHolder where
  codePlaceHolder : Str
  importPlaceHolder : Str
deriving DecidableEq, Repr

def goCodePlaceHolder : Str := str "// USER_CODE_HERE"
def goImportPlaceHolder : Str := str "// IMPORTS_HERE"
def pythonCodePlaceHolder : Str := str "# USER_CODE_HERE"
def jsCodePlaceHolder : Str := str "// USER_CODE_HERE"

/-- Embedding of `getLanguagePlaceHolder` (code_builder.go): languages
outside the switch get the zero-valued pair. -/
def getLanguagePlaceHolder (lang : Str) : LanguagePlaceHolder :=
  if lang = str "Golang" then
    { codePlaceHolder := goCodePlaceHolder, importPlaceHolder := goImportPlaceHolder }
  else if lang = str "Python" then
    { codePlaceHolder := pythonCodePlaceHolder, importPlaceHolder := [] }
  else if lang = str "Javascript" then
    { codePlaceHolder := jsCodePlaceHolder, importPlaceHolder := [] }
  else
    { codePlaceHolder := [], importPlaceHolder := [] }

def DefaultMaxCodeLength : Nat := 1000

/-- Modelled from the spec: the function `Sanitize(userCode, lang, maxLen)`
called by `Build` is missing from the sources (only its call sites appear).
The spec's Code Builder contract says it rejects user code longer than
`MaxCodeLength` and user code containing any token of a configurable
deny-list; the deny-list is passed here as an explicit parameter. Returns
`true` when the code is acceptable. -/
def Sanitize (denyList : List Str) (userCode : Str) (maxLen : Nat) : Bool :=
  userCode.length ≤ maxLen && denyList.all (fun t => !containsSub userCode t)

/-- Embedding of `generateImports` (code_builder.go lines 109-125). The
Go source iterates a `map[string]bool`; `iter` is the key sequence the
runtime produced for that iteration, which Go does not determine from the
map contents. -/
def generateImports (iter : List Str) : Str :=
  if iter.isEmpty then []
  else
    str "import (\n" ++
      (iter.map (fun pkg => str " \t\"" ++ pkg ++ str "\"\n ")).flatten ++
      str ")"

/-- Errors surfaced by `Build`: the sanitizer rejection and
`executor.ErrParsed` from the package analyzer. -/
inductive BuildErr
  | sanitizeRejected
  | errParsed
deriving DecidableEq, Repr

/-- Embedding of `ConcreteCodeBuilder.Build` (code_builder.go lines
76-107). `hasAnalyzer` says whether `pkgAnalyzers[lang]` is non-nil (in the
wired system only `Golang` has one); `analyzeRes` is the Go parser's
outcome on the combined source — the analyzed package set on success — and
`iter` is the order in which `generateImports` observed that set's keys.
The user-code placeholder is substituted into the driver first; with an
analyzer present, the imports placeholder is then substituted in the
combined source. -/
def Build (denyList : List Str) (hasAnalyzer : Bool)
    (analyzeRes : Except Unit (List Str)) (iter : List Str)
    (lang driverCode userCode : Str) : Except BuildErr Str :=
  if !Sanitize denyList userCode DefaultMaxCodeLength then
    Except.error BuildErr.sanitizeRejected
  else
    let placeholder := getLanguagePlaceHolder lang
    let finalCode := replaceOnce driverCode placeholder.codePlaceHolder userCode
    if hasAnalyzer then
      match analyzeRes with
      | Except.error _ => Except.error BuildErr.errParsed
      | Except.ok _ =>
        Except.ok (replaceOnce finalCode placeholder.importPlaceHolder
          (generateImports iter))
    else
      Except.ok finalCode

/-- A key sequence is a valid iteration of the analyzer outcome when it
enumerates exactly the analyzed package set (a permutation of its keys);
when analysis failed no iteration happens. -/
def ValidIter (analyzeRes : Except Unit (List Str)) (iter : List Str) : Prop :=
  match analyzeRes with
  | Except.error _ => iter = []
  | Except.ok pkgs => iter.Perm pkgs

/-! Theorems. -/

/-- A sample submitted-solution event used in concrete evaluations. -/
def sampleSubmitted : SolutionSubmitted :=
  { PlayerID := 1, EventID := 2, RoomID := 3, ProblemID := 4
    Code := str "code", Language := str "go", SubmissionID := 7 }

/-- A sample language with no compile command. -/
def sampleLang : Language :=
  { CompileCmd := [], RunCmd := str "python3 main.py"
    TempFileDir := str "/tmp", TempFileName := str "main.py" }

/-- A job environment whose external calls all succeed and whose runs all
return empty output instantly. -/
def sampleGoodEnv : JobEnv :=
  { container := ContainerOutcome.acquired 0, copyErr := none
    compileResult := { Stdout := [], Stderr := [], Err := none, DurationMs := 0 }
    run := fun _ => { Stdout := [], Stderr := [], Err := none, DurationMs := 0 } }

/-- A full room events queue (ten pending events). -/
def fullRoomQueue : List EventType :=
  List.replicate 10 EventType.PLAYER_JOINED

/-- Test case number `i` succeeded: the run command exited cleanly and the
trimmed stdout matches the trimmed expectation. -/
def passesAt (run : Nat → ExecCmdResult) (tc : TestCase) (i : Nat) : Prop :=
  (run i).Err = none ∧ trimSpace (run i).Stdout = trimSpace tc.ExpectedOutput

/-- Total execution time in milliseconds accumulated by the test-case loop
over `tcs`, when the first remaining test case has absolute index `idx`. -/
def totalDur (run : Nat → ExecCmdResult) : Nat → List TestCase → Nat
  | _, [] => 0
  | idx, _ :: rest => (run idx).DurationMs + totalDur run (idx + 1) rest

/-- The user-code substitution step of `Build` (code_builder.go line 86):
`strings.Replace(driverCode, placeholder.codePlaceHolder, userCode, 1)`. -/
def buildUserSubstitution (lang driverCode userCode : Str) : Str :=
  replaceOnce driverCode (getLanguagePlaceHolder lang).codePlaceHolder userCode

/-- A Go driver template containing both Golang placeholders. -/
def goDriverSample : Str :=
  str "package main\n// IMPORTS_HERE\nfunc main()\x7b\n// USER_CODE_HERE\n\x7d"

/-- User code whose selector expressions make the analyzer report the
two-element package set containing fmt and strings. -/
def goUserSample : Str := str "fmt.Println(strings.TrimSpace(s))"

/-- A job environment whose runs exit cleanly but print the wrong output. -/
def sampleWrongEnv : JobEnv :=
  { container := ContainerOutcome.acquired 0, copyErr := none
    compileResult := { Stdout := [], Stderr := [], Err := none, DurationMs := 0 }
    run := fun _ => { Stdout := str "43", Stderr := [], Err := none, DurationMs := 5 } }

/-- A sample test case expecting output 42. -/
def sampleTC : TestCase := { ID := 1, Input := str "1", ExpectedOutput := str "42" }

/-- C1, counterexample: a worker `Result` carrying the copy-in failure
error (a non-nil error that is none of the three sentinels) is translated
by `generateSolutionResult` to status `Accepted` with score 50 — the
switch has no default case and the score is hard-coded — contradicting the
claim that such a result is not classified Accepted and that the score is
the problem's configured score on Accepted and 0 otherwise. -/
theorem C1_counterexample :
    (generateSolutionResult sampleSubmitted (copyFailedResult (GoErr.other 0))).Status
        = JudgeStatus.Accepted ∧
      (copyFailedResult (GoErr.other 0)).Error ≠ none ∧
      (generateSolutionResult sampleSubmitted (copyFailedResult (GoErr.other 0))).Score = 50 ∧
      (50 : Int) ≠ 0 := by
  refine ⟨rfl, by decide, rfl, by decide⟩

/-- C1, amended: `generateSolutionResult` maps `CompileError` to
`CompilationError`, `RunTimeError` to `RuntimeError` and `FailTestCase` to
`WrongAnswer`, and classifies every other `Result` — nil error or any
other error value, such as a copy-in failure — as `Accepted`; the score is
always 50 regardless of status and of the problem's configuration. -/
theorem C1_amended (s : SolutionSubmitted) (r : Result) :
    (generateSolutionResult s r).Score = 50 ∧
      ((generateSolutionResult s r).Status = JudgeStatus.CompilationError ↔
        r.Error = some GoErr.compileError) ∧
      ((generateSolutionResult s r).Status = JudgeStatus.RuntimeError ↔
        r.Error = some GoErr.runTimeError) ∧
      ((generateSolutionResult s r).Status = JudgeStatus.WrongAnswer ↔
        r.Error = some GoErr.failTestCase) ∧
      ((generateSolutionResult s r).Status = JudgeStatus.Accepted ↔
        (r.Error = none ∨ ∃ t, r.Error = some (GoErr.other t))) := by
  rcases hE : r.Error with _ | e
  · simp [generateSolutionResult, hE]
  · cases e <;> simp [generateSolutionResult, hE]

/-- C2, counterexample: a `SolutionResult` with verdict `CompilationError`
is finalized by `processSolutionResult` as `wrong_answer`, not as the
claimed corresponding terminal status `compilation_error`. -/
theorem C2_counterexample :
    updatesFor 7
        (processSolutionResult 3 2
          { submitted := sampleSubmitted, Score := 0
            Status := JudgeStatus.CompilationError, Message := [] }
          { updateOk := true, addScoreOk := true, entriesOk := true })
        = [SubmissionStatus.wrong_answer] ∧
      SubmissionStatus.wrong_answer ≠ SubmissionStatus.compilation_error := by
  refine ⟨rfl, by decide⟩

/-- C2, amended: on any non-accepted verdict the room loop updates the
submission row to the single terminal status `wrong_answer` (whatever the
verdict was), and the `WRONG_SOLUTION_SUBMITTED` SSE event is handed only
to `dispatchEventToPlayer` for the submitting player — no room-wide
dispatch happens and the player-targeted dispatch offers the event to no
listener other than the submitter. -/
theorem C2_amended (rid eid : Nat) (ev : SolutionResult) (env : ResultEnv)
    (h : ev.Status ≠ JudgeStatus.Accepted) :
    updatesFor ev.submitted.SubmissionID (processSolutionResult rid eid ev env)
        = [SubmissionStatus.wrong_answer] ∧
      (∀ et pid, Action.dispatchToPlayer et pid ∈ processSolutionResult rid eid ev env →
        et = EventType.WRONG_SOLUTION_SUBMITTED ∧ pid = ev.submitted.PlayerID) ∧
      (∀ et, Action.dispatchToRoom et ∉ processSolutionResult rid eid ev env) ∧
      (∀ ls p, p ∈ dispatchEventToPlayerTargets ls ev.submitted.PlayerID →
        p = ev.submitted.PlayerID) := by
  refine ⟨?_, ?_, ?_, ?_⟩
  · cases hu : env.updateOk <;> simp [processSolutionResult, h, hu, updatesFor]
  · intro et pid hmem
    cases hu : env.updateOk <;>
      simp [processSolutionResult, h, hu] at hmem
    exact ⟨hmem.1, hmem.2⟩
  · intro et hmem
    cases hu : env.updateOk <;>
      simp [processSolutionResult, h, hu] at hmem
  · intro ls p hp
    unfold dispatchEventToPlayerTargets at hp
    cases hF : findListener ls ev.submitted.PlayerID <;> simp [hF] at hp
    exact hp

/-- C2, witness for the amended theorem at a concrete non-accepted event. -/
theorem C2_witness :
    ({ submitted := sampleSubmitted, Score := 0
       Status := JudgeStatus.RuntimeError, Message := [] } : SolutionResult).Status
        ≠ JudgeStatus.Accepted ∧
      updatesFor 7
        (processSolutionResult 3 2
          { submitted := sampleSubmitted, Score := 0
            Status := JudgeStatus.RuntimeError, Message := [] }
          { updateOk := false, addScoreOk := true, entriesOk := true })
        = [SubmissionStatus.wrong_answer] :=
  ⟨by decide,
    (C2_amended 3 2
      { submitted := sampleSubmitted, Score := 0
        Status := JudgeStatus.RuntimeError, Message := [] }
      { updateOk := false, addScoreOk := true, entriesOk := true }
      (by decide)).1⟩

/-- C3: evaluation of the room loop at the failing input. The submission
row is created, the problem-detail lookup fails, and the loop's entire
trace for the event contains the creation and no `UpdateSubmissionStatus`
at all — the submission stays `pending` instead of being finalized as
`runtime_error`. -/
theorem C3_code_evaluation :
    handleSubmission 3 2 sampleSubmitted
        { langFound := true, getLangOk := true, createOk := true
          newSubmissionID := 7, problemOk := false, testsOk := true
          buildOk := true, jobResult := Result.zero }
        { updateOk := true, addScoreOk := true, entriesOk := true }
        = [Action.createSubmission 7] ∧
      updatesFor 7
        (handleSubmission 3 2 sampleSubmitted
          { langFound := true, getLangOk := true, createOk := true
            newSubmissionID := 7, problemOk := false, testsOk := true
            buildOk := true, jobResult := Result.zero }
          { updateOk := true, addScoreOk := true, entriesOk := true })
        = [] := by
  refine ⟨rfl, rfl⟩

/-- C4, counterexample: when container acquisition fails, `executeJob`
returns without ever sending on the job's `Result` channel — zero results
are signaled, so a caller blocked in `ExecuteJob` waits forever,
contradicting the claim that the channel is signaled on every exit path. -/
theorem C4_counterexample :
    (executeJob
        { container := ContainerOutcome.acquireFailed (GoErr.other 1)
          copyErr := none
          compileResult := { Stdout := [], Stderr := [], Err := none, DurationMs := 0 }
          run := fun _ => { Stdout := [], Stderr := [], Err := none, DurationMs := 0 } }
        sampleLang []).1 = [] := rfl

/-- C4, amended: once a container has been acquired and marked busy,
every exit path of `executeJob` (copy-in failure, compile failure, runtime
error, wrong answer, success) sends exactly one `Result` on the job's
channel; when acquisition or busy-marking fails, the worker returns
without sending and the caller's wait never completes. -/
theorem C4_amended (env : JobEnv) (lang : Language) (tcs : List TestCase)
    (id : Nat) (h : env.container = ContainerOutcome.acquired id) :
    (executeJob env lang tcs).1.length = 1 := by
  obtain ⟨c, ce, cr, run⟩ := env
  cases h
  cases ce <;> simp only [executeJob]
  · split
    · simp
    · simp
  · simp

/-- C4, witness for the amended theorem at a concrete job environment. -/
theorem C4_witness : (executeJob sampleGoodEnv sampleLang []).1.length = 1 :=
  C4_amended sampleGoodEnv sampleLang [] 0 rfl

/-- C5, counterexample: with the queue at capacity, `ExecuteJob` returns
the zero value `Result{}`, whose `Message` is the empty string — there is
no distinguished "queue full" message on the returned value (the condition
is only logged). -/
theorem C5_counterexample :
    ExecuteJob 1 [{ lang := sampleLang, code := str "x" }]
        { lang := sampleLang, code := str "y" } (allPassedResult 0)
        = (Result.zero, [{ lang := sampleLang, code := str "x" }]) ∧
      Result.zero.Message = [] ∧ Result.zero.Success = false := by
  refine ⟨rfl, rfl, rfl⟩

/-- C5, amended: `ExecuteJob` enqueues without blocking — at capacity it
returns synchronously the zero-valued `Result` (with `Success = false` and
an empty `Message`; the "queue full" condition is only logged), below
capacity it enqueues and returns the worker's verdict — and an enqueue
never grows the queue beyond its configured capacity. -/
theorem C5_amended (cap : Nat) (q : List JobSpec) (j : JobSpec) (await : Result) :
    (q.length = cap → ExecuteJob cap q j await = (Result.zero, q)) ∧
      (∀ q2, tryEnqueue cap q j = some q2 → q2.length ≤ cap) ∧
      (q.length < cap → ExecuteJob cap q j await = (await, q ++ [j])) := by
  refine ⟨?_, ?_, ?_⟩
  · intro hfull
    simp [ExecuteJob, tryEnqueue, hfull]
  · intro q2 hq2
    unfold tryEnqueue at hq2
    split at hq2
    · cases hq2
      simpa using by omega
    · cases hq2
  · intro hlt
    simp [ExecuteJob, tryEnqueue, hlt]

/-- C5, witness for the amended theorem on a concrete full queue. -/
theorem C5_witness :
    ([{ lang := sampleLang, code := str "x" }] : List JobSpec).length = 1 ∧
      ExecuteJob 1 [{ lang := sampleLang, code := str "x" }]
          { lang := sampleLang, code := str "y" } Result.zero
        = (Result.zero, [{ lang := sampleLang, code := str "x" }]) :=
  ⟨rfl,
    (C5_amended 1 [{ lang := sampleLang, code := str "x" }]
      { lang := sampleLang, code := str "y" } Result.zero).1 rfl⟩

/-- C7, counterexample: with the room's `Events` channel full, the SSE
handler's `PlayerJoined` enqueue and the room loop's own re-enqueue of a
`SolutionResult` block waiting instead of dropping the event and answering
503 — they are plain channel sends, not try-sends. -/
theorem C7_counterexample :
    sseJoinEnqueue fullRoomQueue EventType.PLAYER_JOINED = SendOutcome.blockedWait ∧
      roomLoopReenqueue fullRoomQueue EventType.CORRECT_SOLUTION_SUBMITTED
        = SendOutcome.blockedWait ∧
      SendOutcome.blockedWait ≠ SendOutcome.droppedWith503 := by
  refine ⟨rfl, rfl, by decide⟩

/-- C7, amended: only the submission handler's send onto a room's `Events`
channel is a non-blocking try-send that drops the event and answers 503
when the channel is full; the SSE handler's `PlayerJoined`/`PlayerLeft`
enqueues and the room loop's re-enqueue of a `SolutionResult` are blocking
sends that wait for space. Below capacity all four sends append the event. -/
theorem C7_amended (q : List EventType) (e : EventType) :
    (roomEventsCap ≤ q.length →
      submitHandlerEnqueue q e = SendOutcome.droppedWith503 ∧
        sseJoinEnqueue q e = SendOutcome.blockedWait ∧
        sseLeaveEnqueue q e = SendOutcome.blockedWait ∧
        roomLoopReenqueue q e = SendOutcome.blockedWait) ∧
      (q.length < roomEventsCap →
        submitHandlerEnqueue q e = SendOutcome.sent (q ++ [e]) ∧
          sseJoinEnqueue q e = SendOutcome.sent (q ++ [e]) ∧
          sseLeaveEnqueue q e = SendOutcome.sent (q ++ [e]) ∧
          roomLoopReenqueue q e = SendOutcome.sent (q ++ [e])) := by
  constructor
  · intro hge
    have hnot : ¬q.length < roomEventsCap := by omega
    simp [submitHandlerEnqueue, sseJoinEnqueue, sseLeaveEnqueue,
      roomLoopReenqueue, hnot]
  · intro hlt
    simp [submitHandlerEnqueue, sseJoinEnqueue, sseLeaveEnqueue,
      roomLoopReenqueue, hlt]

/-- C7, witness for the amended theorem on a concrete full queue. -/
theorem C7_witness :
    roomEventsCap ≤ fullRoomQueue.length ∧
      submitHandlerEnqueue fullRoomQueue EventType.PLAYER_LEFT
        = SendOutcome.droppedWith503 :=
  ⟨by decide,
    ((C7_amended fullRoomQueue EventType.PLAYER_LEFT).1 (by decide)).1⟩

/-- C10: a job whose copy-in succeeds, whose language has an empty
`CompileCmd`, and whose test-case list is empty is accepted without any
run: `executeJob` sends the single verdict with `Success = true`, message
"All test cases passed!" and execution time "0ms", and executes zero test
cases. -/
theorem C10_empty_tests (env : JobEnv) (lang : Language) (id : Nat)
    (hc : env.container = ContainerOutcome.acquired id)
    (hcopy : env.copyErr = none) (hcmd : lang.CompileCmd = []) :
    executeJob env lang [] = ([allPassedResult 0], 0) ∧
      allPassedResult 0
        = { Stdout := [], Stderr := [], Message := str "All test cases passed!"
            Success := true, Error := none, ExecutionTime := str "0ms" } := by
  refine ⟨?_, rfl⟩
  obtain ⟨c, ce, cr, run⟩ := env
  cases hc
  cases hcopy
  simp [executeJob, hcmd, runTestCases]

/-- C10, witness at a concrete environment and language. -/
theorem C10_witness :
    executeJob sampleGoodEnv sampleLang [] = ([allPassedResult 0], 0) :=
  (C10_empty_tests sampleGoodEnv sampleLang 0 rfl rfl rfl).1

/-- Unfolding `replaceOnce` when `old` is a prefix of `s`. -/
lemma replaceOnce_pos (s old new : Str) (h : old.isPrefixOf s = true) :
    replaceOnce s old new = new ++ s.drop old.length := by
  conv_lhs => unfold replaceOnce
  rw [if_pos h]

/-- Unfolding `replaceOnce` on a cons cell whose head starts no match. -/
lemma replaceOnce_neg_cons (c : Char) (rest old new : Str)
    (h : old.isPrefixOf (c :: rest) = false) :
    replaceOnce (c :: rest) old new = c :: replaceOnce rest old new := by
  conv_lhs => unfold replaceOnce
  rw [if_neg (by simp [h])]

/-- Unfolding `replaceOnce` on the empty string when `old` is non-empty. -/
lemma replaceOnce_nil (old new : Str) (h : old.isPrefixOf ([] : Str) = false) :
    replaceOnce [] old new = [] := by
  conv_lhs => unfold replaceOnce
  rw [if_neg (by simp [h])]

/-- `containsSub` on a cons cell: a match here or further right. -/
lemma containsSub_cons (c : Char) (rest old : Str) :
    containsSub (c :: rest) old
      = (old.isPrefixOf (c :: rest) || containsSub rest old) := by
  conv_lhs => unfold containsSub
  cases hp : old.isPrefixOf (c :: rest) <;> simp

/-- `containsSub` on the empty string is the prefix test itself. -/
lemma containsSub_nil (old : Str) :
    containsSub [] old = old.isPrefixOf [] := by
  conv_lhs => unfold containsSub
  cases hp : old.isPrefixOf ([] : Str) <;> simp

/-- A list is a Boolean prefix of itself followed by anything. -/
lemma isPrefixOf_append_self : ∀ (p s : Str), p.isPrefixOf (p ++ s) = true := by
  intro p
  induction p with
  | nil => intro s; simp
  | cons c p2 ih => intro s; simp [List.cons_append, List.isPrefixOf_cons₂, ih]

/-- Extending the larger list preserves the Boolean prefix test. -/
lemma isPrefixOf_append_right :
    ∀ (a b c : Str), a.isPrefixOf b = true → a.isPrefixOf (b ++ c) = true := by
  intro a
  induction a with
  | nil => intro b c _; simp
  | cons x xs ih =>
    intro b c h
    cases b with
    | nil => cases h
    | cons y ys =>
      simp only [List.isPrefixOf_cons₂, Bool.and_eq_true, beq_iff_eq] at h
      simp only [List.cons_append, List.isPrefixOf_cons₂, Bool.and_eq_true,
        beq_iff_eq]
      exact ⟨h.1, ih ys c h.2⟩

/-- `strings.Replace(s, old, new, 1)` is the identity when `old` does not
occur in `s`. -/
lemma replaceOnce_of_not_contains (old new : Str) :
    ∀ s : Str, containsSub s old = false → replaceOnce s old new = s := by
  intro s
  induction s with
  | nil =>
    intro h
    rw [containsSub_nil] at h
    exact replaceOnce_nil old new h
  | cons c rest ih =>
    intro h
    rw [containsSub_cons, Bool.or_eq_false_iff] at h
    rw [replaceOnce_neg_cons c rest old new h.1, ih h.2]

/-- `strings.Replace(s, old, new, 1)` replaces exactly the first occurrence:
if `s = p ++ old ++ t` and `old` does not occur starting inside `p`, the
result is `p ++ new ++ t` (any later occurrence inside `t` is untouched). -/
lemma replaceOnce_at_first_occurrence :
    ∀ (p old t new : Str),
      (∀ i, i < p.length → old.isPrefixOf ((p ++ old ++ t).drop i) = false) →
      replaceOnce (p ++ old ++ t) old new = p ++ new ++ t := by
  intro p
  induction p with
  | nil =>
    intro old t new _
    have hp : old.isPrefixOf (old ++ t) = true := isPrefixOf_append_self old t
    simp only [List.nil_append]
    rw [replaceOnce_pos (old ++ t) old new hp, List.drop_left]
  | cons c p2 ih =>
    intro old t new h
    have h0 := h 0 (by simp)
    simp only [List.drop_zero, List.cons_append] at h0
    have hrest := ih old t new (fun i hi => by
      have hh := h (i + 1) (by simpa using Nat.succ_lt_succ hi)
      simpa using hh)
    simp only [List.cons_append]
    rw [replaceOnce_neg_cons c (p2 ++ old ++ t) old new (by
      simpa only [List.append_assoc] using h0)]
    rw [hrest]

/-- C9: `Build` substitutes the user-code placeholder into the driver
exactly once — if the driver splits as `p ++ placeholder ++ t` with no
occurrence starting inside `p`, the substituted text is `p ++ userCode ++ t`,
leaving any later occurrence untouched — and a driver not containing the
placeholder is tolerated: the substitution is a no-op, and for the
analyzer-less languages (Python, Javascript) `Build` succeeds returning
the driver text unchanged. -/
theorem C9_placeholder_substitution (lang driverCode userCode : Str) :
    (∀ p t, driverCode = p ++ (getLanguagePlaceHolder lang).codePlaceHolder ++ t →
      (∀ i, i < p.length →
        (getLanguagePlaceHolder lang).codePlaceHolder.isPrefixOf (driverCode.drop i) = false) →
      buildUserSubstitution lang driverCode userCode = p ++ userCode ++ t) ∧
      (containsSub driverCode (getLanguagePlaceHolder lang).codePlaceHolder = false →
        buildUserSubstitution lang driverCode userCode = driverCode) ∧
      (∀ denyList aRes iter,
        (lang = str "Python" ∨ lang = str "Javascript") →
        Sanitize denyList userCode DefaultMaxCodeLength = true →
        containsSub driverCode (getLanguagePlaceHolder lang).codePlaceHolder = false →
        Build denyList false aRes iter lang driverCode userCode = Except.ok driverCode) := by
  refine ⟨?_, ?_, ?_⟩
  · intro p t hsplit hno
    subst hsplit
    exact replaceOnce_at_first_occurrence p _ t userCode hno
  · intro hnc
    exact replaceOnce_of_not_contains _ userCode driverCode hnc
  · intro denyList aRes iter _ hsan hnc
    have hsub := replaceOnce_of_not_contains
      (getLanguagePlaceHolder lang).codePlaceHolder userCode driverCode hnc
    simp [Build, hsan, hsub]

/-- C9, witness: a Python driver without the placeholder passes through
`Build` unchanged, and the substitution on it is a no-op. -/
theorem C9_witness :
    Build [] false (Except.ok []) [] (str "Python") (str "print(2)") (str "print(1)")
        = Except.ok (str "print(2)") ∧
      buildUserSubstitution (str "Python") (str "print(2)") (str "print(1)")
        = str "print(2)" :=
  ⟨(C9_placeholder_substitution (str "Python") (str "print(2)") (str "print(1)")).2.2
      [] (Except.ok []) [] (Or.inl rfl) (by decide) (by decide),
    (C9_placeholder_substitution (str "Python") (str "print(2)") (str "print(1)")).2.1
      (by decide)⟩

/-- C8, counterexample: `generateImports` iterates a Go map, whose key
order is not determined by the map contents; for the two-element analyzed
package set containing fmt and strings, the two possible iteration orders
make `Build` return two different output strings on identical inputs. -/
theorem C8_counterexample :
    ValidIter (Except.ok [str "fmt", str "strings"]) [str "fmt", str "strings"] ∧
      ValidIter (Except.ok [str "fmt", str "strings"]) [str "strings", str "fmt"] ∧
      Build [] true (Except.ok [str "fmt", str "strings"]) [str "fmt", str "strings"]
          (str "Golang") goDriverSample goUserSample
        ≠ Build [] true (Except.ok [str "fmt", str "strings"]) [str "strings", str "fmt"]
          (str "Golang") goDriverSample goUserSample := by
  refine ⟨List.Perm.refl _, List.Perm.swap (str "fmt") (str "strings") [], ?_⟩
  intro h
  exact absurd (congrArg Except.toOption h) (by decide)

/-- C8, amended: `Build` is deterministic in its inputs together with the
runtime's map-iteration order; in particular two invocations on the same
inputs return the same output string whenever the language has no
registered analyzer or the analyzed package set has at most one element.
With two or more packages the imports block may list the same packages in
different orders across invocations. -/
theorem C8_amended (denyList : List Str) (hasAnalyzer : Bool)
    (aRes : Except Unit (List Str)) (iter1 iter2 : List Str)
    (lang driverCode userCode : Str)
    (h1 : ValidIter aRes iter1) (h2 : ValidIter aRes iter2)
    (hsmall : hasAnalyzer = false ∨
      ∀ pkgs, aRes = Except.ok pkgs → pkgs.length ≤ 1) :
    Build denyList hasAnalyzer aRes iter1 lang driverCode userCode
      = Build denyList hasAnalyzer aRes iter2 lang driverCode userCode := by
  rcases hsmall with h | h
  · subst h
    simp [Build]
  · cases aRes with
    | error e =>
      have e1 : iter1 = [] := h1
      have e2 : iter2 = [] := h2
      rw [e1, e2]
    | ok pkgs =>
      have hlen := h pkgs rfl
      have p1 : iter1.Perm pkgs := h1
      have p2 : iter2.Perm pkgs := h2
      have e12 : iter1 = iter2 := by
        cases pkgs with
        | nil =>
          rw [p1.eq_nil, p2.eq_nil]
        | cons a rest =>
          cases rest with
          | nil =>
            rw [List.perm_singleton.mp p1, List.perm_singleton.mp p2]
          | cons b rest2 => simp at hlen
      rw [e12]

/-- C8, witness: the amended determinism at a singleton analyzed set. -/
theorem C8_witness :
    Build [] true (Except.ok [str "fmt"]) [str "fmt"] (str "Golang")
        goDriverSample goUserSample
      = Build [] true (Except.ok [str "fmt"]) [str "fmt"] (str "Golang")
        goDriverSample goUserSample :=
  C8_amended [] true (Except.ok [str "fmt"]) [str "fmt"] [str "fmt"]
    (str "Golang") goDriverSample goUserSample
    (List.Perm.refl _) (List.Perm.refl _)
    (Or.inr (fun pkgs hp => by cases hp; decide))

/-- Under an acquired container, a clean copy and a passing (or absent)
compile step, `executeJob` is exactly the test-case loop started at index 0. -/
lemma executeJob_runs (env : JobEnv) (lang : Language) (tcs : List TestCase)
    (id : Nat) (hc : env.container = ContainerOutcome.acquired id)
    (hcopy : env.copyErr = none)
    (hcompile : lang.CompileCmd = [] ∨ env.compileResult.Err = none) :
    executeJob env lang tcs
      = ([(runTestCases env.run tcs 0 0).1], (runTestCases env.run tcs 0 0).2) := by
  obtain ⟨c, ce, cr, run⟩ := env
  cases hc
  cases hcopy
  rcases hcompile with h | h
  · simp [executeJob, h]
  · have h2 : cr.Err = none := h
    simp [executeJob, h2]

/-- When every test case passes, the loop returns the success verdict with
the accumulated duration and runs the whole list. -/
lemma runTestCases_all_pass (run : Nat → ExecCmdResult) :
    ∀ (tcs : List TestCase) (idx acc : Nat),
      (∀ j tc, tcs[j]? = some tc → passesAt run tc (idx + j)) →
      runTestCases run tcs idx acc
        = (allPassedResult (acc + totalDur run idx tcs), tcs.length) := by
  intro tcs
  induction tcs with
  | nil => intro idx acc _; simp [runTestCases, totalDur]
  | cons tc0 rest ih =>
    intro idx acc h
    have h0 : passesAt run tc0 idx := by
      have := h 0 tc0 (by simp)
      simpa using this
    obtain ⟨hErr, hEq⟩ := h0
    have hrest : ∀ j tc2, rest[j]? = some tc2 → passesAt run tc2 (idx + 1 + j) := by
      intro j tc2 hj
      have hh := h (j + 1) tc2 (by simpa using hj)
      have e : idx + (j + 1) = idx + 1 + j := by omega
      rw [e] at hh
      exact hh
    simp only [runTestCases]
    rw [hErr]
    simp only [Option.isSome_none, Bool.false_eq_true, if_false]
    rw [if_neg (by simp [hEq])]
    rw [ih (idx + 1) (acc + (run idx).DurationMs) hrest]
    simp [totalDur, Nat.add_assoc]

/-- When the first `i` test cases pass and the run of case `i` errors, the
loop stops there with the runtime-error verdict, having run `i + 1` cases. -/
lemma runTestCases_runtime_stop (run : Nat → ExecCmdResult) :
    ∀ (tcs : List TestCase) (idx acc i : Nat) (tc : TestCase),
      tcs[i]? = some tc →
      (∀ j tc2, j < i → tcs[j]? = some tc2 → passesAt run tc2 (idx + j)) →
      (run (idx + i)).Err.isSome = true →
      runTestCases run tcs idx acc = (runtimeErrorResult (run (idx + i)), i + 1) := by
  intro tcs
  induction tcs with
  | nil => intro idx acc i tc hget; simp at hget
  | cons tc0 rest ih =>
    intro idx acc i tc hget hpre herr
    cases i with
    | zero =>
      simp only [runTestCases]
      rw [if_pos (by simpa using herr)]
      simp
    | succ n =>
      have h0 : passesAt run tc0 idx := by
        have := hpre 0 tc0 (Nat.succ_pos n) (by simp)
        simpa using this
      obtain ⟨hErr0, hEq0⟩ := h0
      have hget2 : rest[n]? = some tc := by simpa using hget
      have hpre2 : ∀ j tc2, j < n → rest[j]? = some tc2 →
          passesAt run tc2 (idx + 1 + j) := by
        intro j tc2 hj hjg
        have hh := hpre (j + 1) tc2 (Nat.succ_lt_succ hj) (by simpa using hjg)
        have e : idx + (j + 1) = idx + 1 + j := by omega
        rw [e] at hh
        exact hh
      have herr2 : (run (idx + 1 + n)).Err.isSome = true := by
        have e : idx + (n + 1) = idx + 1 + n := by omega
        rw [e] at herr
        exact herr
      simp only [runTestCases]
      rw [hErr0]
      simp only [Option.isSome_none, Bool.false_eq_true, if_false]
      rw [if_neg (by simp [hEq0])]
      rw [ih (idx + 1) (acc + (run idx).DurationMs) n tc hget2 hpre2 herr2]
      have e : idx + 1 + n = idx + (n + 1) := by omega
      rw [e]

/-- When the first `i` test cases pass, the run of case `i` exits cleanly
but its trimmed stdout differs from the trimmed expectation, the loop stops
there with the wrong-answer verdict, having run `i + 1` cases. -/
lemma runTestCases_wrong_stop (run : Nat → ExecCmdResult) :
    ∀ (tcs : List TestCase) (idx acc i : Nat) (tc : TestCase),
      tcs[i]? = some tc →
      (∀ j tc2, j < i → tcs[j]? = some tc2 → passesAt run tc2 (idx + j)) →
      (run (idx + i)).Err = none →
      trimSpace (run (idx + i)).Stdout ≠ trimSpace tc.ExpectedOutput →
      runTestCases run tcs idx acc = (wrongAnswerResult tc (run (idx + i)), i + 1) := by
  intro tcs
  induction tcs with
  | nil => intro idx acc i tc hget; simp at hget
  | cons tc0 rest ih =>
    intro idx acc i tc hget hpre herr hne
    cases i with
    | zero =>
      have hget0 : tc0 = tc := by simpa using hget
      subst hget0
      simp only [runTestCases]
      rw [show run idx = run (idx + 0) from by simp]
      rw [herr]
      simp only [Option.isSome_none, Bool.false_eq_true, if_false]
      rw [if_pos hne]
    | succ n =>
      have h0 : passesAt run tc0 idx := by
        have := hpre 0 tc0 (Nat.succ_pos n) (by simp)
        simpa using this
      obtain ⟨hErr0, hEq0⟩ := h0
      have hget2 : rest[n]? = some tc := by simpa using hget
      have e : idx + (n + 1) = idx + 1 + n := by omega
      have hpre2 : ∀ j tc2, j < n → rest[j]? = some tc2 →
          passesAt run tc2 (idx + 1 + j) := by
        intro j tc2 hj hjg
        have hh := hpre (j + 1) tc2 (Nat.succ_lt_succ hj) (by simpa using hjg)
        have e2 : idx + (j + 1) = idx + 1 + j := by omega
        rw [e2] at hh
        exact hh
      have herr2 : (run (idx + 1 + n)).Err = none := by rw [← e]; exact herr
      have hne2 : trimSpace (run (idx + 1 + n)).Stdout
          ≠ trimSpace tc.ExpectedOutput := by rw [← e]; exact hne
      simp only [runTestCases]
      rw [hErr0]
      simp only [Option.isSome_none, Bool.false_eq_true, if_false]
      rw [if_neg (by simp [hEq0])]
      rw [ih (idx + 1) (acc + (run idx).DurationMs) n tc hget2 hpre2 herr2 hne2]
      rw [← e]

/-- C6: for a job that reaches the test loop, the worker runs the test
cases in order and stops at the first failure. If the first `i` cases pass
and the run of case `i` errors, the single verdict is `RunTimeError` with
`Success = false` and exactly `i + 1` cases were run; if the run of case
`i` exits cleanly but its trimmed stdout differs from the trimmed expected
output, the single verdict is `FailTestCase` with a message starting
"Wrong Answer on test case" and exactly `i + 1` cases were run; and when
every case passes, the single verdict is `Success = true` with message
"All test cases passed!" and the accumulated execution time in
milliseconds. -/
theorem C6_first_failure_semantics (env : JobEnv) (lang : Language)
    (tcs : List TestCase) (id : Nat)
    (hc : env.container = ContainerOutcome.acquired id)
    (hcopy : env.copyErr = none)
    (hcompile : lang.CompileCmd = [] ∨ env.compileResult.Err = none) :
    (∀ i tc, tcs[i]? = some tc →
      (∀ j tc2, j < i → tcs[j]? = some tc2 → passesAt env.run tc2 j) →
      (env.run i).Err.isSome = true →
      executeJob env lang tcs = ([runtimeErrorResult (env.run i)], i + 1) ∧
        (runtimeErrorResult (env.run i)).Error = some GoErr.runTimeError ∧
        (runtimeErrorResult (env.run i)).Success = false) ∧
      (∀ i tc, tcs[i]? = some tc →
        (∀ j tc2, j < i → tcs[j]? = some tc2 → passesAt env.run tc2 j) →
        (env.run i).Err = none →
        trimSpace (env.run i).Stdout ≠ trimSpace tc.ExpectedOutput →
        executeJob env lang tcs = ([wrongAnswerResult tc (env.run i)], i + 1) ∧
          (wrongAnswerResult tc (env.run i)).Error = some GoErr.failTestCase ∧
          (wrongAnswerResult tc (env.run i)).Success = false ∧
          (str "Wrong Answer on test case").isPrefixOf
            (wrongAnswerResult tc (env.run i)).Message = true) ∧
      ((∀ j tc2, tcs[j]? = some tc2 → passesAt env.run tc2 j) →
        executeJob env lang tcs
            = ([allPassedResult (totalDur env.run 0 tcs)], tcs.length) ∧
          (allPassedResult (totalDur env.run 0 tcs)).Success = true ∧
          (allPassedResult (totalDur env.run 0 tcs)).Message
            = str "All test cases passed!" ∧
          (allPassedResult (totalDur env.run 0 tcs)).ExecutionTime
            = (Nat.repr (totalDur env.run 0 tcs)).toList ++ str "ms") := by
  have hrun := executeJob_runs env lang tcs id hc hcopy hcompile
  refine ⟨?_, ?_, ?_⟩
  · intro i tc hget hpre herr
    have hstop := runTestCases_runtime_stop env.run tcs 0 0 i tc hget
      (fun j tc2 hj hjg => by simpa using hpre j tc2 hj hjg)
      (by simpa using herr)
    rw [hrun, hstop]
    refine ⟨by simp, rfl, rfl⟩
  · intro i tc hget hpre herr hne
    have hstop := runTestCases_wrong_stop env.run tcs 0 0 i tc hget
      (fun j tc2 hj hjg => by simpa using hpre j tc2 hj hjg)
      (by simpa using herr) (by simpa using hne)
    rw [hrun, hstop]
    refine ⟨by simp, rfl, rfl, ?_⟩
    show (str "Wrong Answer on test case").isPrefixOf
      (wrongAnswerMessage tc.Input (trimSpace tc.ExpectedOutput)
        (trimSpace (env.run i).Stdout)) = true
    unfold wrongAnswerMessage
    have hlit : str "Wrong Answer on test case.\nInput:\n"
        = str "Wrong Answer on test case" ++ str ".\nInput:\n" := by decide
    rw [hlit]
    apply isPrefixOf_append_right
    apply isPrefixOf_append_right
    apply isPrefixOf_append_right
    apply isPrefixOf_append_right
    apply isPrefixOf_append_right
    exact isPrefixOf_append_self _ _
  · intro hall
    have hpass := runTestCases_all_pass env.run tcs 0 0
      (fun j tc2 hjg => by simpa using hall j tc2 hjg)
    rw [hrun, hpass]
    simp [allPassedResult]

/-- C6, witness: a concrete one-test job whose clean run prints 43 against
expectation 42 stops at case 0 with the wrong-answer verdict. -/
theorem C6_witness :
    executeJob sampleWrongEnv sampleLang [sampleTC]
      = ([wrongAnswerResult sampleTC (sampleWrongEnv.run 0)], 1) :=
  ((C6_first_failure_semantics sampleWrongEnv sampleLang [sampleTC] 0 rfl rfl
      (Or.inl rfl)).2.1 0 sampleTC (by decide)
    (fun j _ hj _ => absurd hj (Nat.not_lt_zero j))
    (by decide) (by decide)).1

end CodeBattle
